import Mathlib

/-!
Shallow embedding of `src/ids_project/network_monitor/monitor.py`
(class `NetworkMonitor`): the packet decoder, the per-flow buffer logic of
`packet_handler`, the feature aggregator `compute_connection_features`,
the service map, and the cleanup sweep `_cleanup_old_connections`.

Python dictionaries holding packet features are modelled as a record whose
fields are all `Option`-valued: `d.get(k, v)` becomes `Option.getD`.
Python floats (timestamps) are modelled as rationals.
-/

/-- A decoded packet feature dictionary, as built by
`extract_packet_features`.  Every field is optional because the code reads
the dictionary with `.get` and defaults. -/
structure PacketRecord where
  timestamp : Option String := none
  timestamp_raw : Option ℚ := none
  src_ip : Option String := none
  dst_ip : Option String := none
  protocol : Option Nat := none
  packet_size : Option Nat := none
  ttl : Option Nat := none
  src_port : Option Nat := none
  dst_port : Option Nat := none
  tcp_flags : Option Nat := none
  window_size : Option Nat := none
  protocol_type : Option String := none
deriving DecidableEq

/-- The 41-attribute feature dictionary built by
`compute_connection_features`, plus the trailing metadata fields. -/
structure FeatureVector where
  duration : ℚ
  protocol_type : String
  service : String
  flag : String
  src_bytes : Nat
  dst_bytes : Nat
  land : Nat
  wrong_fragment : Nat
  urgent : Nat
  hot : Nat
  num_failed_logins : Nat
  logged_in : Nat
  num_compromised : Nat
  root_shell : Nat
  su_attempted : Nat
  num_root : Nat
  num_file_creations : Nat
  num_shells : Nat
  num_access_files : Nat
  num_outbound_cmds : Nat
  is_host_login : Nat
  is_guest_login : Nat
  count : Nat
  srv_count : Nat
  serror_rate : ℚ
  srv_serror_rate : ℚ
  rerror_rate : ℚ
  srv_rerror_rate : ℚ
  same_srv_rate : ℚ
  diff_srv_rate : ℚ
  srv_diff_host_rate : ℚ
  dst_host_count : Nat
  dst_host_srv_count : Nat
  dst_host_same_srv_rate : ℚ
  dst_host_diff_srv_rate : ℚ
  dst_host_same_src_port_rate : ℚ
  dst_host_srv_diff_host_rate : ℚ
  dst_host_serror_rate : ℚ
  dst_host_srv_serror_rate : ℚ
  dst_host_rerror_rate : ℚ
  dst_host_srv_rerror_rate : ℚ
  src_ip : Option String
  dst_ip : Option String
  timestamp : Option String
deriving DecidableEq

/-- The class-level constant `PORT_SERVICE_MAP` (15 entries). -/
def PORT_SERVICE_MAP (port : Nat) : Option String :=
  if port = 20 then some "ftp_data"
  else if port = 21 then some "ftp"
  else if port = 22 then some "ssh"
  else if port = 23 then some "telnet"
  else if port = 25 then some "smtp"
  else if port = 53 then some "domain_u"
  else if port = 80 then some "http"
  else if port = 110 then some "pop_3"
  else if port = 143 then some "imap4"
  else if port = 443 then some "https"
  else if port = 3306 then some "mysql"
  else if port = 5432 then some "postgres"
  else if port = 6379 then some "redis"
  else if port = 8080 then some "http_8080"
  else if port = 8443 then some "https_alt"
  else none

/-- `map_port_to_service`: dictionary lookup with default `"other"`. -/
def map_port_to_service (port : Nat) : String :=
  (PORT_SERVICE_MAP port).getD "other"

/-- `compute_connection_features`: derives the feature dictionary from a
batch of packet records; `None` on an empty batch.  The Python body can
raise no exception (every dictionary read is a `.get` with default and the
indexing `[0]`/`[-1]` is on a non-empty list), so the `except` branch
returning `None` is unreachable for a non-empty typed batch. -/
def compute_connection_features : List PacketRecord → Option FeatureVector
  | [] => none
  | first :: rest =>
    let packet_list := first :: rest
    let last := packet_list.getLast (List.cons_ne_nil first rest)
    let src_ip := first.src_ip
    let dst_ip := first.dst_ip
    some {
      duration := last.timestamp_raw.getD 0 - first.timestamp_raw.getD 0
      protocol_type := first.protocol_type.getD "tcp"
      service := map_port_to_service (first.dst_port.getD 0)
      flag := "SF"
      src_bytes :=
        ((packet_list.filter fun p => decide (p.src_ip = src_ip)).map
          fun p => p.packet_size.getD 0).sum
      dst_bytes :=
        ((packet_list.filter fun p => decide (p.dst_ip = dst_ip)).map
          fun p => p.packet_size.getD 0).sum
      land := if first.src_ip = first.dst_ip then 1 else 0
      wrong_fragment := 0
      urgent := 0
      hot := 0
      num_failed_logins := 0
      logged_in := 0
      num_compromised := 0
      root_shell := 0
      su_attempted := 0
      num_root := 0
      num_file_creations := 0
      num_shells := 0
      num_access_files := 0
      num_outbound_cmds := 0
      is_host_login := 0
      is_guest_login := 0
      count := packet_list.length
      srv_count := packet_list.length
      serror_rate := 0
      srv_serror_rate := 0
      rerror_rate := 0
      srv_rerror_rate := 0
      same_srv_rate := 1
      diff_srv_rate := 0
      srv_diff_host_rate := 0
      dst_host_count := 1
      dst_host_srv_count := 1
      dst_host_same_srv_rate := 1
      dst_host_diff_srv_rate := 0
      dst_host_same_src_port_rate := 1
      dst_host_srv_diff_host_rate := 0
      dst_host_serror_rate := 0
      dst_host_srv_serror_rate := 0
      dst_host_rerror_rate := 0
      dst_host_srv_rerror_rate := 0
      src_ip := src_ip
      dst_ip := dst_ip
      timestamp := first.timestamp }

/-- The transport sub-structure of a raw scapy TCP layer. -/
structure RawTCP where
  sport : Nat
  dport : Nat
  flags : Nat
  window : Nat
deriving DecidableEq

/-- The transport sub-structure of a raw scapy UDP layer. -/
structure RawUDP where
  sport : Nat
  dport : Nat
deriving DecidableEq

/-- A raw captured packet as seen through the scapy interface used by
`extract_packet_features`: network-layer presence and fields, optional
transport layers, and a `malformed` flag meaning that touching the packet
raises (the code catches any such exception and yields `None`). -/
structure RawPacket where
  hasIP : Bool
  malformed : Bool
  src : String
  dst : String
  proto : Nat
  ttl : Nat
  size : Nat
  tcp : Option RawTCP
  udp : Option RawUDP
  icmp : Bool
deriving DecidableEq

/-- `extract_packet_features`: decodes one raw packet into a feature
dictionary, or `None` for a non-IP or malformed packet.  `now_iso` and
`now_raw` stand for the `datetime.now().isoformat()` and `time.time()`
reads.  The Lean function is total: the Python `try` wrapper means no
exception ever reaches the caller. -/
def extract_packet_features (now_iso : String) (now_raw : ℚ)
    (p : RawPacket) : Option PacketRecord :=
  if p.malformed then none
  else if ¬ p.hasIP then none
  else
    let base : PacketRecord := {
      timestamp := some now_iso
      timestamp_raw := some now_raw
      src_ip := some p.src
      dst_ip := some p.dst
      protocol := some p.proto
      packet_size := some p.size
      ttl := some p.ttl }
    match p.tcp with
    | some t =>
      some { base with
        src_port := some t.sport
        dst_port := some t.dport
        tcp_flags := some t.flags
        window_size := some t.window
        protocol_type := some "tcp" }
    | none =>
      match p.udp with
      | some u =>
        some { base with
          src_port := some u.sport
          dst_port := some u.dport
          protocol_type := some "udp" }
      | none =>
        if p.icmp then
          some { base with
            protocol_type := some "icmp"
            src_port := some 0
            dst_port := some 0 }
        else
          some { base with
            protocol_type := some "other"
            src_port := some 0
            dst_port := some 0 }

/-- Decimal digit characters of `n`, most significant first, with explicit
fuel so the function is structurally recursive (empty for `n = 0`).
Models Python's decimal rendering of an `int` inside an f-string. -/
def natChars : Nat → Nat → List Char
  | 0, _ => []
  | fuel + 1, n =>
    if n = 0 then []
    else natChars fuel (n / 10) ++ [Nat.digitChar (n % 10)]

/-- Decimal string of a natural number, as Python's `str` renders a
non-negative `int`. -/
def natStr (n : Nat) : String :=
  if n = 0 then "0" else String.mk (natChars n n)

/-- The connection key built in `packet_handler`:
`f"{src_ip}:{src_port}-{dst_ip}:{dst_port}"`.  The protocol kind is not
part of the key.  Decoder output always carries `src_ip`/`dst_ip`, so the
`getD` matches the code's direct dictionary access. -/
def connKey (f : PacketRecord) : String :=
  (f.src_ip.getD "") ++ ":" ++ natStr (f.src_port.getD 0) ++ "-" ++
    (f.dst_ip.getD "") ++ ":" ++ natStr (f.dst_port.getD 0)

/-- Appending to a `collections.deque` with `maxlen = cap`: when full, the
oldest element is dropped from the left. -/
def dequeAppend (cap : Nat) (buf : List PacketRecord) (x : PacketRecord) :
    List PacketRecord :=
  let b := buf ++ [x]
  if cap < b.length then b.drop (b.length - cap) else b

/-- The per-flow buffer step of `packet_handler` for threshold `T`
(`PACKETS_PER_CONNECTION`; the deque capacity is `2 * T`): append the
packet, and if the buffer length reaches `T`, snapshot it as the batch to
analyze and clear it. -/
def recordOp (T : Nat) (buf : List PacketRecord) (f : PacketRecord) :
    List PacketRecord × Option (List PacketRecord) :=
  let b := dequeAppend (2 * T) buf f
  if T ≤ b.length then ([], some b) else (b, none)

/-- Runs `recordOp` over a packet sequence from a given buffer, collecting
the emitted batches in order. -/
def flowRunFrom (T : Nat) (buf : List PacketRecord) :
    List PacketRecord → List PacketRecord × List (List PacketRecord)
  | [] => (buf, [])
  | f :: fs =>
    let r := recordOp T buf f
    let rest := flowRunFrom T r.1 fs
    (rest.1, r.2.toList ++ rest.2)

/-- Runs a packet sequence against an initially empty flow buffer. -/
def flowRun (T : Nat) (ps : List PacketRecord) :
    List PacketRecord × List (List PacketRecord) :=
  flowRunFrom T [] ps

/-- Per-connection state held in `connection_states`. -/
structure FlowState where
  packets : List PacketRecord
  start_time : ℚ
  last_update : ℚ
deriving DecidableEq

/-- The `connection_states` dictionary, keyed by the connection string. -/
abbrev FlowTable := List (String × FlowState)

/-- Dictionary lookup in the flow table. -/
def lookupFlow (tbl : FlowTable) (k : String) : Option FlowState :=
  List.lookup k tbl

/-- Dictionary update: replace the entry for `k` in place, or append a new
entry, as a Python dict assignment does. -/
def setFlow : FlowTable → String → FlowState → FlowTable
  | [], k, st => [(k, st)]
  | (k₀, st₀) :: rest, k, st =>
    if k₀ = k then (k, st) :: rest else (k₀, st₀) :: setFlow rest k st

/-- The shared-state section of `packet_handler`: look up (or, via
`defaultdict`, create) the flow for the packet's connection key, append
the packet, set `last_update`, and drain the buffer as a batch when it
reaches the threshold. -/
def handlePacket (T : Nat) (now : ℚ) (tbl : FlowTable) (f : PacketRecord) :
    FlowTable × Option (List PacketRecord) :=
  let k := connKey f
  let st := (lookupFlow tbl k).getD ⟨[], now, now⟩
  let r := recordOp T st.packets f
  (setFlow tbl k ⟨r.1, st.start_time, now⟩, r.2)

/-- `_cleanup_old_connections` body (one sweep): remove every entry whose
`last_update` is more than `maxAge` seconds before `now`, returning the
cleaned table and the number of removed entries. -/
def sweep (maxAge now : ℚ) (tbl : FlowTable) : FlowTable × Nat :=
  (tbl.filter fun e => decide (¬ maxAge < now - e.2.last_update),
   (tbl.filter fun e => decide (maxAge < now - e.2.last_update)).length)

/-- An address string that cannot collide with the key separators. -/
def plainIp (s : String) : Prop := ∀ c ∈ s.data, c ≠ ':' ∧ c ≠ '-'

instance (s : String) : Decidable (plainIp s) := by
  unfold plainIp
  exact List.decidableBAll _ _

lemma digitChar_injOn :
    ∀ a < 10, ∀ b < 10, Nat.digitChar a = Nat.digitChar b → a = b := by
  decide

lemma digitChar_not_sep :
    ∀ d < 10, Nat.digitChar d ≠ ':' ∧ Nat.digitChar d ≠ '-' := by
  decide

lemma natChars_zero (fuel : Nat) : natChars fuel 0 = [] := by
  cases fuel <;> simp [natChars]

lemma natChars_fuel :
    ∀ f₁ : Nat, ∀ f₂ n : Nat, n ≤ f₁ → n ≤ f₂ →
      natChars f₁ n = natChars f₂ n := by
  intro f₁
  induction f₁ with
  | zero =>
    intro f₂ n h₁ _
    have hn : n = 0 := Nat.le_zero.mp h₁
    subst hn
    rw [natChars_zero, natChars_zero]
  | succ g ih =>
    intro f₂ n h₁ h₂
    by_cases hn : n = 0
    · subst hn
      rw [natChars_zero, natChars_zero]
    · obtain ⟨h, rfl⟩ : ∃ h, f₂ = h + 1 := by
        cases f₂ with
        | zero => exact absurd (Nat.le_zero.mp h₂) hn
        | succ h => exact ⟨h, rfl⟩
      have hdiv : n / 10 < n := Nat.div_lt_self (Nat.pos_of_ne_zero hn) (by omega)
      simp only [natChars, if_neg hn]
      rw [ih g (n / 10) (by omega) (by omega),
          ih h (n / 10) (by omega) (by omega)]

lemma natChars_step (n : Nat) (hn : n ≠ 0) :
    natChars n n = natChars (n / 10) (n / 10) ++ [Nat.digitChar (n % 10)] := by
  obtain ⟨m, rfl⟩ : ∃ m, n = m + 1 := by
    cases n with
    | zero => exact absurd rfl hn
    | succ m => exact ⟨m, rfl⟩
  have hdiv : (m + 1) / 10 < m + 1 := Nat.div_lt_self (by omega) (by omega)
  simp only [natChars, if_neg hn]
  rw [natChars_fuel m ((m + 1) / 10) ((m + 1) / 10) (by omega) (by omega)]

lemma natChars_mem :
    ∀ fuel n : Nat, ∀ c ∈ natChars fuel n, ∃ d, d < 10 ∧ c = Nat.digitChar d := by
  intro fuel
  induction fuel with
  | zero => intro n c hc; simp [natChars] at hc
  | succ g ih =>
    intro n c hc
    by_cases hn : n = 0
    · subst hn; simp [natChars] at hc
    · simp only [natChars, if_neg hn, List.mem_append, List.mem_singleton] at hc
      rcases hc with hc | hc
      · exact ih (n / 10) c hc
      · exact ⟨n % 10, Nat.mod_lt _ (by omega), hc⟩

lemma natChars_ne_nil (n : Nat) (hn : n ≠ 0) : natChars n n ≠ [] := by
  rw [natChars_step n hn]
  simp

lemma natChars_inj :
    ∀ n : Nat, ∀ m : Nat, n ≠ 0 → m ≠ 0 →
      natChars n n = natChars m m → n = m := by
  intro n
  induction n using Nat.strong_induction_on with
  | _ n ih =>
    intro m hn hm h
    rw [natChars_step n hn, natChars_step m hm] at h
    obtain ⟨hpre, hdig⟩ := List.append_inj' h rfl
    have hmod : n % 10 = m % 10 :=
      digitChar_injOn _ (Nat.mod_lt _ (by omega)) _ (Nat.mod_lt _ (by omega))
        (List.singleton_injective hdig)
    have hdiv : n / 10 = m / 10 := by
      by_cases h₁ : n / 10 = 0
      · by_cases h₂ : m / 10 = 0
        · omega
        · rw [h₁, natChars_zero] at hpre
          exact absurd hpre.symm (natChars_ne_nil _ h₂)
      · by_cases h₂ : m / 10 = 0
        · rw [h₂, natChars_zero] at hpre
          exact absurd hpre (natChars_ne_nil _ h₁)
        · exact ih (n / 10) (Nat.div_lt_self (Nat.pos_of_ne_zero hn) (by omega))
            (m / 10) h₁ h₂ hpre
    omega

lemma natStr_inj : ∀ n m : Nat, natStr n = natStr m → n = m := by
  have key : ∀ m : Nat, m ≠ 0 → ¬ natChars m m = ['0'] := by
    intro m hm h
    rw [natChars_step m hm] at h
    have hlen := congrArg List.length h
    simp [List.length_append] at hlen
    have hnil : natChars (m / 10) (m / 10) = [] := hlen
    have hdivz : m / 10 = 0 := by
      by_contra hdz
      exact natChars_ne_nil _ hdz hnil
    rw [hnil] at h
    simp at h
    have : m % 10 = 0 :=
      digitChar_injOn _ (Nat.mod_lt _ (by omega)) 0 (by omega) (by rw [h]; rfl)
    omega
  intro n m h
  by_cases hn : n = 0 <;> by_cases hm : m = 0
  · omega
  · exfalso
    rw [natStr, natStr, if_pos hn, if_neg hm] at h
    have hd := congrArg String.data h
    have h0 : ("0" : String).data = ['0'] := rfl
    rw [h0] at hd
    exact key m hm hd.symm
  · exfalso
    rw [natStr, natStr, if_neg hn, if_pos hm] at h
    have hd := congrArg String.data h
    have h0 : ("0" : String).data = ['0'] := rfl
    rw [h0] at hd
    exact key n hn hd
  · rw [natStr, natStr, if_neg hn, if_neg hm] at h
    exact natChars_inj n m hn hm (by simpa using congrArg String.data h)

lemma natStr_not_sep (n : Nat) :
    ∀ c ∈ (natStr n).data, c ≠ ':' ∧ c ≠ '-' := by
  intro c hc
  by_cases hn : n = 0
  · subst hn
    have h0 : (natStr 0).data = ['0'] := rfl
    rw [h0] at hc
    simp at hc
    subst hc
    decide
  · rw [natStr, if_neg hn] at hc
    obtain ⟨d, hd, rfl⟩ := natChars_mem n n c hc
    exact digitChar_not_sep d hd

lemma sep_split {c : Char} :
    ∀ xs as ys bs : List Char, c ∉ xs → c ∉ as →
      xs ++ c :: ys = as ++ c :: bs → xs = as ∧ ys = bs := by
  intro xs
  induction xs with
  | nil =>
    intro as ys bs _ has h
    cases as with
    | nil => simpa using h
    | cons a as =>
      simp only [List.nil_append, List.cons_append, List.cons.injEq] at h
      exact absurd (h.1 ▸ List.mem_cons_self a as) has
  | cons x xs ih =>
    intro as ys bs hxs has h
    cases as with
    | nil =>
      simp only [List.cons_append, List.nil_append, List.cons.injEq] at h
      exact absurd (h.1 ▸ List.mem_cons_self x xs) hxs
    | cons a as =>
      simp only [List.cons_append, List.cons.injEq] at h
      obtain ⟨rfl, h⟩ := h
      obtain ⟨h₁, h₂⟩ := ih as ys bs (fun hc => hxs (List.mem_cons_of_mem _ hc))
        (fun hc => has (List.mem_cons_of_mem _ hc)) h
      exact ⟨by rw [h₁], h₂⟩

lemma connKey_data (f : PacketRecord) :
    (connKey f).data =
      (f.src_ip.getD "").data ++ ':' ::
        ((natStr (f.src_port.getD 0)).data ++ '-' ::
          ((f.dst_ip.getD "").data ++ ':' ::
            (natStr (f.dst_port.getD 0)).data)) := by
  have hc : (":" : String).data = [':'] := rfl
  have hd : ("-" : String).data = ['-'] := rfl
  simp [connKey, String.data_append, hc, hd]

lemma connKey_inj {f g : PacketRecord}
    (hfs : plainIp (f.src_ip.getD "")) (hfd : plainIp (f.dst_ip.getD ""))
    (hgs : plainIp (g.src_ip.getD "")) (hgd : plainIp (g.dst_ip.getD ""))
    (h : connKey f = connKey g) :
    f.src_ip.getD "" = g.src_ip.getD "" ∧
      f.src_port.getD 0 = g.src_port.getD 0 ∧
      f.dst_ip.getD "" = g.dst_ip.getD "" ∧
      f.dst_port.getD 0 = g.dst_port.getD 0 := by
  have hd := congrArg String.data h
  rw [connKey_data, connKey_data] at hd
  have nomem : ∀ s : String, plainIp s → ':' ∉ s.data := by
    intro s hs hmem
    exact (hs ':' hmem).1 rfl
  have nomem' : ∀ n : Nat, '-' ∉ (natStr n).data := by
    intro n hmem
    exact (natStr_not_sep n '-' hmem).2 rfl
  have nomem'' : ∀ s : String, plainIp s → ':' ∉ s.data := nomem
  obtain ⟨h₁, hrest⟩ :=
    sep_split _ _ _ _ (nomem _ hfs) (nomem _ hgs) hd
  obtain ⟨h₂, hrest⟩ :=
    sep_split _ _ _ _ (nomem' _) (nomem' _) hrest
  obtain ⟨h₃, h₄⟩ :=
    sep_split _ _ _ _ (nomem'' _ hfd) (nomem'' _ hgd) hrest
  refine ⟨String.ext h₁, ?_, String.ext h₃, ?_⟩
  · exact natStr_inj _ _ (String.ext h₂)
  · exact natStr_inj _ _ (String.ext h₄)

lemma dequeAppend_length (cap : Nat) (buf : List PacketRecord)
    (x : PacketRecord) :
    (dequeAppend cap buf x).length = min cap (buf.length + 1) := by
  simp only [dequeAppend]
  split
  all_goals simp_all
  all_goals omega

lemma recordOp_lt {T : Nat} {buf : List PacketRecord} (f : PacketRecord)
    (h : buf.length + 1 < T) : recordOp T buf f = (buf ++ [f], none) := by
  have hlen : (buf ++ [f]).length = buf.length + 1 := by simp
  simp only [recordOp, dequeAppend]
  rw [if_neg (by omega : ¬ 2 * T < (buf ++ [f]).length),
      if_neg (by omega : ¬ T ≤ (buf ++ [f]).length)]

lemma recordOp_eq {T : Nat} {buf : List PacketRecord} (f : PacketRecord)
    (h : buf.length + 1 = T) : recordOp T buf f = ([], some (buf ++ [f])) := by
  have hlen : (buf ++ [f]).length = buf.length + 1 := by simp
  simp only [recordOp, dequeAppend]
  rw [if_neg (by omega : ¬ 2 * T < (buf ++ [f]).length),
      if_pos (by omega : T ≤ (buf ++ [f]).length)]

lemma flowRunFrom_cons (T : Nat) (buf : List PacketRecord)
    (f : PacketRecord) (fs : List PacketRecord) :
    flowRunFrom T buf (f :: fs) =
      ((flowRunFrom T (recordOp T buf f).1 fs).1,
       (recordOp T buf f).2.toList ++ (flowRunFrom T (recordOp T buf f).1 fs).2) :=
  rfl

lemma flowRunFrom_short {T : Nat} :
    ∀ ps buf, buf.length + ps.length < T →
      flowRunFrom T buf ps = (buf ++ ps, []) := by
  intro ps
  induction ps with
  | nil => intro buf _; simp [flowRunFrom]
  | cons f fs ih =>
    intro buf h
    simp only [List.length_cons] at h
    rw [flowRunFrom_cons, recordOp_lt f (by omega : buf.length + 1 < T)]
    rw [ih (buf ++ [f]) (by simp; omega)]
    simp

lemma flowRunFrom_fill {T : Nat} :
    ∀ ps buf, ps ≠ [] → buf.length + ps.length = T →
      flowRunFrom T buf ps = ([], [buf ++ ps]) := by
  intro ps
  induction ps with
  | nil => intro buf h _; exact absurd rfl h
  | cons f fs ih =>
    intro buf _ h
    simp only [List.length_cons] at h
    cases fs with
    | nil =>
      rw [flowRunFrom_cons, recordOp_eq f (by simp at h; omega : buf.length + 1 = T)]
      simp [flowRunFrom]
    | cons f₂ fs₂ =>
      rw [flowRunFrom_cons,
        recordOp_lt f (by simp at h ⊢; omega : buf.length + 1 < T)]
      rw [ih (buf ++ [f]) (by simp) (by simp at h ⊢; omega)]
      simp

lemma lookup_setFlow :
    ∀ (tbl : FlowTable) (k : String) (st : FlowState),
      lookupFlow (setFlow tbl k st) k = some st := by
  intro tbl
  induction tbl with
  | nil => intro k st; simp [setFlow, lookupFlow, List.lookup]
  | cons e rest ih =>
    intro k st
    obtain ⟨k₀, st₀⟩ := e
    by_cases hk : k₀ = k
    · simp [setFlow, if_pos hk, lookupFlow, List.lookup]
    · simp only [setFlow, if_neg hk, lookupFlow, List.lookup]
      rw [show (k == k₀) = false from beq_eq_false_iff_ne.mpr (fun hh => hk hh.symm)]
      exact ih k st

lemma filter_partition_length {α : Type} (p : α → Bool) :
    ∀ l : List α,
      (l.filter fun a => !(p a)).length + (l.filter p).length = l.length := by
  intro l
  induction l with
  | nil => simp
  | cons a l ih =>
    by_cases ha : p a <;> simp [List.filter, ha] <;> omega

/-- A packet dictionary with every field absent: every read in
`compute_connection_features` falls back to its default. -/
def emptyRecord : PacketRecord := {}

/-- A decoded TCP packet for the flow 10.0.0.1:1000 → 10.0.0.2:80,
as the scenario of §8 of the specification describes. -/
def httpPacket (ts : ℚ) (size : Nat) : PacketRecord :=
  { timestamp := some "1970-01-01T00:00:00"
    timestamp_raw := some ts
    src_ip := some "10.0.0.1"
    dst_ip := some "10.0.0.2"
    protocol := some 6
    packet_size := some size
    ttl := some 64
    src_port := some 1000
    dst_port := some 80
    tcp_flags := some 2
    window_size := some 8192
    protocol_type := some "tcp" }

/-- A concrete TCP packet record. -/
def tcpSample : PacketRecord := httpPacket 0 100

/-- The same connection endpoints as `tcpSample`, but UDP: it differs from
`tcpSample` only in protocol kind. -/
def udpSample : PacketRecord := { tcpSample with protocol_type := some "udp" }

/-- The reverse-direction packet of `tcpSample`: addresses and ports
swapped. -/
def revSample : PacketRecord :=
  { tcpSample with
    src_ip := some "10.0.0.2"
    src_port := some 80
    dst_ip := some "10.0.0.1"
    dst_port := some 1000 }


/-- C1: with aggregation threshold `T` (default 3), the per-flow buffer
logic of `packet_handler` flushes exactly when the buffer length reaches
`T`: below the threshold the packet is only appended and nothing is
emitted; the packet that brings the length to `T` yields exactly the
snapshot of the `T` buffered packets as the batch and leaves the buffer
empty; running `T` packets against an initially empty flow emits exactly
one batch, on the `T`-th packet; and at the table level the flow stored
under the packet's connection key is drained the same way. -/
theorem C1_threshold_flush (T : Nat) (hT : 0 < T) :
    (∀ (buf : List PacketRecord) (f : PacketRecord), buf.length + 1 < T →
      recordOp T buf f = (buf ++ [f], none)) ∧
    (∀ (buf : List PacketRecord) (f : PacketRecord), buf.length + 1 = T →
      recordOp T buf f = ([], some (buf ++ [f]))) ∧
    (∀ ps : List PacketRecord, ps.length < T → flowRun T ps = (ps, [])) ∧
    (∀ ps : List PacketRecord, ps.length = T → flowRun T ps = ([], [ps])) ∧
    (∀ (now : ℚ) (tbl : FlowTable) (f : PacketRecord) (st : FlowState),
      lookupFlow tbl (connKey f) = some st → st.packets.length + 1 = T →
      (handlePacket T now tbl f).2 = some (st.packets ++ [f]) ∧
      lookupFlow (handlePacket T now tbl f).1 (connKey f) =
        some ⟨[], st.start_time, now⟩) := by
  refine ⟨fun buf f h => recordOp_lt f h, fun buf f h => recordOp_eq f h,
    ?_, ?_, ?_⟩
  · intro ps h
    have := flowRunFrom_short (T := T) ps [] (by simpa using h)
    simpa [flowRun] using this
  · intro ps h
    have hne : ps ≠ [] := by
      intro he
      subst he
      simp at h
      omega
    have := flowRunFrom_fill (T := T) ps [] hne (by simpa using h)
    simpa [flowRun] using this
  · intro now tbl f st hlk hlen
    simp only [handlePacket, hlk, Option.getD_some, recordOp_eq f hlen]
    exact ⟨trivial, lookup_setFlow _ _ _⟩

/-- C1 witness: with the default threshold 3, the third packet of a flow
flushes the batch of the three buffered packets and empties the buffer. -/
theorem C1_threshold_flush_witness :
    recordOp 3 [emptyRecord, emptyRecord] emptyRecord =
      ([], some [emptyRecord, emptyRecord, emptyRecord]) :=
  (C1_threshold_flush 3 (by norm_num)).2.1 [emptyRecord, emptyRecord]
    emptyRecord rfl

/-- C2: three TCP packets 10.0.0.1:1000 → 10.0.0.2:80 of sizes 100, 150
and 200 bytes with raw timestamps `t`, `t + 0.1` and `t + 0.25`, with
threshold 3, flush as one batch, whose feature vector has
`protocol_type = "tcp"`, `service = "http"`, `flag = "SF"`,
`src_bytes = 450`, `count = 3`, `duration = 0.25` and `land = 0`. -/
theorem C2_end_to_end (t : ℚ) :
    (∃ v, compute_connection_features
        [httpPacket t 100, httpPacket (t + 1/10) 150, httpPacket (t + 1/4) 200] =
          some v ∧
      v.protocol_type = "tcp" ∧ v.service = "http" ∧ v.flag = "SF" ∧
      v.src_bytes = 450 ∧ v.count = 3 ∧ v.duration = 1/4 ∧ v.land = 0) ∧
    flowRun 3
        [httpPacket t 100, httpPacket (t + 1/10) 150, httpPacket (t + 1/4) 200] =
      ([], [[httpPacket t 100, httpPacket (t + 1/10) 150,
        httpPacket (t + 1/4) 200]]) := by
  constructor
  · refine ⟨_, rfl, rfl, rfl, rfl, rfl, rfl, ?_, rfl⟩
    show t + 1/4 - t = 1/4
    ring
  · rfl

/-- C3 counterexample: two packets that differ only in protocol kind get
the same connection key, hence land in the same flow — after recording a
TCP packet and then a UDP packet with the same endpoints, the flow stored
under their common key holds both.  The claimed five-component key is
refuted: the code's key has only four components. -/
theorem C3_counterexample :
    tcpSample.protocol_type ≠ udpSample.protocol_type ∧
    tcpSample.src_ip = udpSample.src_ip ∧
    tcpSample.src_port = udpSample.src_port ∧
    tcpSample.dst_ip = udpSample.dst_ip ∧
    tcpSample.dst_port = udpSample.dst_port ∧
    connKey tcpSample = connKey udpSample ∧
    lookupFlow
        (handlePacket 3 0 (handlePacket 3 0 [] tcpSample).1 udpSample).1
        (connKey tcpSample) =
      some ⟨[tcpSample, udpSample], 0, 0⟩ := by
  refine ⟨by decide, rfl, rfl, rfl, rfl, rfl, by decide⟩

/-- C3 (amended): the connection key is the ordered four-component tuple
(source address, source port, destination address, destination port)
rendered as a string — the protocol kind is not part of the key.  For
packets whose addresses contain no separator character, two packets get
the same key (hence the same flow) exactly when they agree on those four
components; the key never depends on the protocol kind. -/
theorem C3_key_components :
    (∀ f g : PacketRecord,
      plainIp (f.src_ip.getD "") → plainIp (f.dst_ip.getD "") →
      plainIp (g.src_ip.getD "") → plainIp (g.dst_ip.getD "") →
      (connKey f = connKey g ↔
        (f.src_ip.getD "" = g.src_ip.getD "" ∧
         f.src_port.getD 0 = g.src_port.getD 0 ∧
         f.dst_ip.getD "" = g.dst_ip.getD "" ∧
         f.dst_port.getD 0 = g.dst_port.getD 0))) ∧
    (∀ (f : PacketRecord) (pt : Option String),
      connKey { f with protocol_type := pt } = connKey f) := by
  constructor
  · intro f g hfs hfd hgs hgd
    constructor
    · exact connKey_inj hfs hfd hgs hgd
    · rintro ⟨h₁, h₂, h₃, h₄⟩
      simp only [connKey, h₁, h₂, h₃, h₄]
  · intro f pt
    rfl

/-- C3 witness: the amended key characterization applied to a packet and
its reverse-direction counterpart. -/
theorem C3_key_components_witness :
    connKey tcpSample = connKey revSample ↔
      (tcpSample.src_ip.getD "" = revSample.src_ip.getD "" ∧
       tcpSample.src_port.getD 0 = revSample.src_port.getD 0 ∧
       tcpSample.dst_ip.getD "" = revSample.dst_ip.getD "" ∧
       tcpSample.dst_port.getD 0 = revSample.dst_port.getD 0) :=
  C3_key_components.1 tcpSample revSample (by decide) (by decide)
    (by decide) (by decide)

/-- C4: with threshold `T > 0` and deque capacity `2 * T`, a flow buffer
holding at most `2 * T` packets still holds at most `2 * T` after an
append (a full deque drops its oldest element instead of growing); the
`packet_handler` step preserves the bound; a buffer that has reached the
threshold after the append is drained to empty; and the sweep, which only
removes entries, preserves the bound across the table. -/
theorem C4_capacity_invariant (T : Nat) (_hT : 0 < T) :
    (∀ (buf : List PacketRecord) (f : PacketRecord), buf.length ≤ 2 * T →
      (dequeAppend (2 * T) buf f).length ≤ 2 * T) ∧
    (∀ (buf : List PacketRecord) (f : PacketRecord), buf.length ≤ 2 * T →
      (recordOp T buf f).1.length ≤ 2 * T) ∧
    (∀ (buf : List PacketRecord) (f : PacketRecord),
      T ≤ (dequeAppend (2 * T) buf f).length → (recordOp T buf f).1 = []) ∧
    (∀ (maxAge now : ℚ) (tbl : FlowTable),
      (∀ e ∈ tbl, e.2.packets.length ≤ 2 * T) →
      ∀ e ∈ (sweep maxAge now tbl).1, e.2.packets.length ≤ 2 * T) := by
  refine ⟨?_, ?_, ?_, ?_⟩
  · intro buf f _
    rw [dequeAppend_length]
    omega
  · intro buf f _
    simp only [recordOp]
    split
    · simp
    · simp only []
      rw [dequeAppend_length]
      omega
  · intro buf f h
    simp only [recordOp]
    rw [if_pos h]
  · intro maxAge now tbl hall e he
    exact hall e (List.filter_sublist tbl |>.subset he)

/-- C4 witness: a buffer already at capacity 6 (threshold 3) is drained to
empty by the next append. -/
theorem C4_capacity_invariant_witness :
    (recordOp 3 [emptyRecord, emptyRecord, emptyRecord, emptyRecord,
      emptyRecord, emptyRecord] emptyRecord).1 = [] :=
  (C4_capacity_invariant 3 (by norm_num)).2.2.1 _ emptyRecord (by decide)

/-- C5: one pass of `_cleanup_old_connections` keeps exactly the entries
whose last update is within `maxAge` of `now` — an entry survives, itself
unchanged and in order, iff `now - last_update ≤ maxAge` — and the
reported count is exactly the number of removed entries. -/
theorem C5_sweep_exact (maxAge now : ℚ) (tbl : FlowTable) :
    (∀ (k : String) (st : FlowState),
      (k, st) ∈ (sweep maxAge now tbl).1 ↔
        ((k, st) ∈ tbl ∧ now - st.last_update ≤ maxAge)) ∧
    List.Sublist (sweep maxAge now tbl).1 tbl ∧
    (sweep maxAge now tbl).1.length + (sweep maxAge now tbl).2 = tbl.length := by
  refine ⟨?_, ?_, ?_⟩
  · intro k st
    simp [sweep, List.mem_filter, not_lt]
  · exact List.filter_sublist tbl
  · simp only [sweep, decide_not]
    exact filter_partition_length
      (fun e : String × FlowState => decide (maxAge < now - e.2.last_update)) tbl

/-- C6 counterexample: a batch whose sole record lacks every field —
including the required source address and timestamp — still yields a
feature vector, refuting "returns none ... on a batch whose packet
records lack a required field". -/
theorem C6_counterexample :
    compute_connection_features [emptyRecord] ≠ none ∧
      emptyRecord.src_ip = none ∧ emptyRecord.timestamp_raw = none := by
  refine ⟨?_, rfl, rfl⟩
  simp [compute_connection_features]

/-- C6 (amended): `compute_connection_features` returns none exactly when
the batch is empty; records lacking fields are defaulted, never cause a
failure, and no partial vector is ever produced. -/
theorem C6_none_iff_empty (ps : List PacketRecord) :
    compute_connection_features ps = none ↔ ps = [] := by
  cases ps <;> simp [compute_connection_features]

/-- A raw captured packet without an IP layer. -/
def noIPPacket : RawPacket :=
  { hasIP := false, malformed := false, src := "", dst := "", proto := 0,
    ttl := 0, size := 0, tcp := none, udp := none, icmp := false }

/-- C7: `extract_packet_features` returns none exactly for a packet with
no IP layer or a malformed one (it is a total function, so no exception
reaches the caller), and protocol dispatch is ordered TCP, else UDP, else
ICMP, else a generic other record, with ports forced to 0 in the last two
cases. -/
theorem C7_decoder (now_iso : String) (now_raw : ℚ) (p : RawPacket) :
    (extract_packet_features now_iso now_raw p = none ↔
      p.hasIP = false ∨ p.malformed = true) ∧
    (∀ r, extract_packet_features now_iso now_raw p = some r →
      (∀ t, p.tcp = some t → r.protocol_type = some "tcp" ∧
        r.src_port = some t.sport ∧ r.dst_port = some t.dport) ∧
      (p.tcp = none → ∀ u, p.udp = some u → r.protocol_type = some "udp" ∧
        r.src_port = some u.sport ∧ r.dst_port = some u.dport) ∧
      (p.tcp = none → p.udp = none → p.icmp = true →
        r.protocol_type = some "icmp" ∧ r.src_port = some 0 ∧
        r.dst_port = some 0) ∧
      (p.tcp = none → p.udp = none → p.icmp = false →
        r.protocol_type = some "other" ∧ r.src_port = some 0 ∧
        r.dst_port = some 0)) := by
  obtain ⟨hip, hmal, src, dst, proto, ttl, size, tcp, udp, icmp⟩ := p
  cases hmal <;> cases hip <;> cases tcp <;> cases udp <;> cases icmp <;>
    refine ⟨by simp [extract_packet_features], ?_⟩ <;>
    · intro r hr
      first
        | (simp [extract_packet_features] at hr
           subst hr
           refine ⟨?_, ?_, ?_, ?_⟩ <;> intros <;> simp_all)
        | simp [extract_packet_features] at hr

/-- C7 witness: a packet without an IP layer decodes to none. -/
theorem C7_decoder_witness :
    extract_packet_features "" 0 noIPPacket = none :=
  (C7_decoder "" 0 noIPPacket).1.mpr (Or.inl rfl)

/-- C8: the service of a non-empty batch is the lookup of the first
packet's destination port in the fixed 15-entry service table, and every
port outside the table maps to "other". -/
theorem C8_service_map :
    (∀ (first : PacketRecord) (rest : List PacketRecord), ∃ v,
      compute_connection_features (first :: rest) = some v ∧
      v.service = map_port_to_service (first.dst_port.getD 0)) ∧
    (map_port_to_service 20 = "ftp_data" ∧ map_port_to_service 21 = "ftp" ∧
     map_port_to_service 22 = "ssh" ∧ map_port_to_service 23 = "telnet" ∧
     map_port_to_service 25 = "smtp" ∧ map_port_to_service 53 = "domain_u" ∧
     map_port_to_service 80 = "http" ∧ map_port_to_service 110 = "pop_3" ∧
     map_port_to_service 143 = "imap4" ∧ map_port_to_service 443 = "https" ∧
     map_port_to_service 3306 = "mysql" ∧
     map_port_to_service 5432 = "postgres" ∧
     map_port_to_service 6379 = "redis" ∧
     map_port_to_service 8080 = "http_8080" ∧
     map_port_to_service 8443 = "https_alt") ∧
    (∀ port : Nat,
      port ∉ ([20, 21, 22, 23, 25, 53, 80, 110, 143, 443, 3306, 5432, 6379,
        8080, 8443] : List Nat) → map_port_to_service port = "other") := by
  refine ⟨?_,
    ⟨rfl, rfl, rfl, rfl, rfl, rfl, rfl, rfl, rfl, rfl, rfl, rfl, rfl, rfl,
      rfl⟩, ?_⟩
  · intro first rest
    exact ⟨_, rfl, rfl⟩
  · intro port h
    simp only [List.mem_cons, List.not_mem_nil, or_false, not_or] at h
    obtain ⟨h₁, h₂, h₃, h₄, h₅, h₆, h₇, h₈, h₉, h₁₀, h₁₁, h₁₂, h₁₃, h₁₄,
      h₁₅⟩ := h
    simp [map_port_to_service, PORT_SERVICE_MAP, h₁, h₂, h₃, h₄, h₅, h₆, h₇,
      h₈, h₉, h₁₀, h₁₁, h₁₂, h₁₃, h₁₄, h₁₅]

/-- C8 witness: a port outside the table maps to "other". -/
theorem C8_service_map_witness : map_port_to_service 99 = "other" :=
  C8_service_map.2.2 99 (by decide)

/-- C9: for a non-empty batch, `src_bytes` sums the sizes of the packets
whose source address equals the first packet's source address, and
`dst_bytes` the sizes of those whose destination address equals the first
packet's destination address; for a unidirectional batch both equal the
total size of the batch. -/
theorem C9_byte_sums :
    (∀ (first : PacketRecord) (rest : List PacketRecord), ∃ v,
      compute_connection_features (first :: rest) = some v ∧
      v.src_bytes = (((first :: rest).filter fun p =>
        decide (p.src_ip = first.src_ip)).map fun p =>
          p.packet_size.getD 0).sum ∧
      v.dst_bytes = (((first :: rest).filter fun p =>
        decide (p.dst_ip = first.dst_ip)).map fun p =>
          p.packet_size.getD 0).sum) ∧
    (∀ (first : PacketRecord) (rest : List PacketRecord),
      (∀ p ∈ first :: rest, p.src_ip = first.src_ip ∧
        p.dst_ip = first.dst_ip) →
      ∃ v, compute_connection_features (first :: rest) = some v ∧
        v.src_bytes = ((first :: rest).map fun p =>
          p.packet_size.getD 0).sum ∧
        v.dst_bytes = ((first :: rest).map fun p =>
          p.packet_size.getD 0).sum) := by
  constructor
  · intro first rest
    exact ⟨_, rfl, rfl, rfl⟩
  · intro first rest h
    have hs : (first :: rest).filter
        (fun p => decide (p.src_ip = first.src_ip)) = first :: rest :=
      List.filter_eq_self.mpr fun p hp => by simp [(h p hp).1]
    have hd : (first :: rest).filter
        (fun p => decide (p.dst_ip = first.dst_ip)) = first :: rest :=
      List.filter_eq_self.mpr fun p hp => by simp [(h p hp).2]
    refine ⟨_, rfl, ?_, ?_⟩
    · show (((first :: rest).filter fun p =>
        decide (p.src_ip = first.src_ip)).map fun p =>
          p.packet_size.getD 0).sum = _
      rw [hs]
    · show (((first :: rest).filter fun p =>
        decide (p.dst_ip = first.dst_ip)).map fun p =>
          p.packet_size.getD 0).sum = _
      rw [hd]

/-- C9 witness: a unidirectional two-packet batch has `src_bytes` and
`dst_bytes` both equal to the total size. -/
theorem C9_byte_sums_witness :
    ∃ v, compute_connection_features
        (httpPacket 0 100 :: [httpPacket 0 50]) = some v ∧
      v.src_bytes = ((httpPacket 0 100 :: [httpPacket 0 50]).map fun p =>
        p.packet_size.getD 0).sum ∧
      v.dst_bytes = ((httpPacket 0 100 :: [httpPacket 0 50]).map fun p =>
        p.packet_size.getD 0).sum :=
  C9_byte_sums.2 (httpPacket 0 100) [httpPacket 0 50] (by decide)

/-- C10: `compute_connection_features` succeeds on every non-empty batch
— missing fields never make it fail — and the defaults are visible on a
batch of one all-empty record: protocol type defaults to "tcp", the
destination port to 0 (hence service "other"), the raw timestamps to 0
(hence duration 0), and the packet sizes to 0 (hence zero byte sums). -/
theorem C10_total_defaults :
    (∀ (first : PacketRecord) (rest : List PacketRecord),
      (compute_connection_features (first :: rest)).isSome = true) ∧
    (∃ v, compute_connection_features [emptyRecord] = some v ∧
      v.protocol_type = "tcp" ∧ v.service = "other" ∧ v.duration = 0 ∧
      v.src_bytes = 0 ∧ v.dst_bytes = 0 ∧ v.count = 1) := by
  constructor
  · intro first rest
    rfl
  · refine ⟨_, rfl, rfl, rfl, ?_, rfl, rfl, rfl⟩
    show (0 : ℚ) - 0 = 0
    norm_num
